import Mathlib

/-!
Verification of the create-discord-bot scaffolding pipeline (src/index.js).

The source is a single Node.js script.  We shallowly embed it:

* JSON values are an inductive `Json`; JavaScript truthiness and property
  access (including the `TypeError` on `null.id`) are explicit functions.
* The external collaborators (the `curl` subprocess issued by `execSync`
  and the runtime's `JSON.parse`) are passed in as function parameters
  returning `Except Unit _`, where `.error ()` stands for a thrown
  exception (network failure / parse error).
* Console output, prompt interactions and step-action execution are
  recorded in an event trace; the step runner and the orchestrator are
  pure functions from their inputs to a trace plus an outcome.
* File contents written by the create/update steps are modelled as
  explicit strings / finite-map transformers over an abstract filesystem
  `Fs := List String → Option String` (path components → file content).
-/

namespace CreateDiscordBot

/-- Model of a JavaScript JSON value (result of `JSON.parse`). -/
inductive Json where
  | null
  | bool (b : Bool)
  | num (n : Int)
  | str (s : String)
  | arr (elems : List Json)
  | obj (fields : List (String × Json))

/-- JavaScript truthiness of a JSON value: `null`, `false`, `0` and the
empty string are falsy; every array and object is truthy. -/
def jsTruthy : Json → Bool
  | Json.null => false
  | Json.bool b => b
  | Json.num n => n != 0
  | Json.str s => s != ""
  | Json.arr _ => true
  | Json.obj _ => true

/-- Lookup of a key in a JSON object field list, first occurrence wins. -/
def lookupField (fields : List (String × Json)) (k : String) : Option Json :=
  match fields with
  | [] => none
  | f :: rest => if f.1 = k then some f.2 else lookupField rest k

/-- JavaScript property access `j.k`.  Accessing a property of `null`
throws a `TypeError` (`Except.error ()`); on a non-object non-null value
the access yields `undefined` (`Except.ok none`); on an object it yields
the field value when present, `undefined` otherwise. -/
def jsGetProp (j : Json) (k : String) : Except Unit (Option Json) :=
  match j with
  | Json.null => Except.error ()
  | Json.obj fields => Except.ok (lookupField fields k)
  | _ => Except.ok none

/-- Embedding of `getApplicationId` (src/index.js lines 35-49).

`curl` stands for the `execSync("curl ...")` call: given the token it
either throws (`.error ()`, e.g. network failure) or returns the response
body.  `jsonParse` stands for the runtime's `JSON.parse`, which either
throws on a non-JSON body or returns the parsed value.  The source wraps
the whole body in `try ... catch { return null; }` and ends with
`return parsedResponse.id || null`, so every thrown error and every
falsy `id` collapses to `none`. -/
def getApplicationId (curl : String → Except Unit String)
    (jsonParse : String → Except Unit Json) (token : String) : Option Json :=
  match curl token with
  | Except.error _ => none
  | Except.ok response =>
    match jsonParse response with
    | Except.error _ => none
    | Except.ok parsedResponse =>
      match jsGetProp parsedResponse "id" with
      | Except.error _ => none
      | Except.ok none => none
      | Except.ok (some v) => if jsTruthy v then some v else none

/-- A pipeline step (src/index.js lines 24-28): a display message, a
dry-run exemption flag (default `false`) and an opaque action label. -/
structure Step (α : Type) where
  message : String
  ignoreDry : Bool := false
  action : α
  deriving Repr, DecidableEq

/-- Observable events of a run: console output on stdout (`print`),
console output on stderr (`printErr`, the top-level `catch`), the two
interactive prompts, and execution of a step action. -/
inductive Event (α : Type) where
  | print (s : String)
  | printErr (s : String)
  | promptUpdate
  | promptToken
  | exec (a : α)
  deriving Repr, DecidableEq

/-- Embedding of the step runner (src/index.js lines 189-194): for each
step in order, `console.log(message)` always happens, and the action runs
exactly when `ignoreDry || !isDryRun`. -/
def runSteps (steps : List (Step α)) (isDryRun : Bool) : List (Event α) :=
  match steps with
  | [] => []
  | s :: rest =>
    Event.print s.message ::
      (if s.ignoreDry || !isDryRun then [Event.exec s.action] else []) ++
      runSteps rest isDryRun

/-- Messages printed on stdout in a trace, in order. -/
def printsOf : List (Event α) → List String
  | [] => []
  | Event.print s :: rest => s :: printsOf rest
  | _ :: rest => printsOf rest

/-- Step actions executed in a trace, in order. -/
def execsOf : List (Event α) → List α
  | [] => []
  | Event.exec a :: rest => a :: execsOf rest
  | _ :: rest => execsOf rest

/-- Escape of one character inside a JSON string literal, as produced by
`JSON.stringify`. -/
def escapeJsonChar (c : Char) : String :=
  if c = '"' then "\\\""
  else if c = '\\' then "\\\\"
  else if c = '\n' then "\\n"
  else if c = '\t' then "\\t"
  else if c = '\r' then "\\r"
  else String.singleton c

/-- Quote a string as a JSON string literal. -/
def quoteJson (s : String) : String :=
  "\"" ++ String.join (s.data.map escapeJsonChar) ++ "\""

mutual

/-- Embedding of `JSON.stringify(v, null, 2)`: serialize a JSON value
with two-space indentation, `ind` being the current indentation of the
enclosing value. -/
def stringifyVal : Json → String → String
  | Json.null, _ => "null"
  | Json.bool true, _ => "true"
  | Json.bool false, _ => "false"
  | Json.num n, _ => toString n
  | Json.str s, _ => quoteJson s
  | Json.arr [], _ => "[]"
  | Json.arr (x :: xs), ind =>
    "[\n" ++ stringifyElems (x :: xs) (ind ++ "  ") ++ "\n" ++ ind ++ "]"
  | Json.obj [], _ => "\x7b\x7d"
  | Json.obj (f :: fs), ind =>
    "\x7b\n" ++ stringifyFields (f :: fs) (ind ++ "  ") ++ "\n" ++ ind ++ "\x7d"

/-- Serialize array elements, one per line at indentation `ind`. -/
def stringifyElems : List Json → String → String
  | [], _ => ""
  | [x], ind => ind ++ stringifyVal x ind
  | x :: y :: xs, ind =>
    ind ++ stringifyVal x ind ++ ",\n" ++ stringifyElems (y :: xs) ind

/-- Serialize object fields, one `"key": value` per line at indentation
`ind`. -/
def stringifyFields : List (String × Json) → String → String
  | [], _ => ""
  | [(k, v)], ind => ind ++ quoteJson k ++ ": " ++ stringifyVal v ind
  | (k, v) :: f :: fs, ind =>
    ind ++ quoteJson k ++ ": " ++ stringifyVal v ind ++ ",\n" ++
      stringifyFields (f :: fs) ind

end

/-- Top-level `JSON.stringify(v, null, 2)`. -/
def jsonStringify (j : Json) : String := stringifyVal j ""

/-- The single-quote character, used in console messages. -/
def sq : String := "\x27"

/-- The utility's own package name (src/index.js line 58, ../package.json). -/
def toolName : String := "create-discord-bot"

/-- The utility's own package version (../package.json). -/
def toolVersion : String := "3.10.2"

/-- Embedding of `utilityNameAndVersion` (src/index.js line 59). -/
def utilityNameAndVersion : String := toolName ++ " v" ++ toolVersion

/-- Labels for the side-effecting step actions built by the orchestrator
(src/index.js lines 110-182).  The filesystem semantics of the actions
relevant to the claims are modelled separately. -/
inductive Action where
  | updateCoreFiles
  | mkdirTarget
  | copyBoilerplate
  | writePackageJson
  | writeTokenJson
  | npmCi
  | inviteLink
  deriving Repr, DecidableEq

/-- Embedding of the UPDATE-mode step list (src/index.js lines 110-118). -/
def updateSteps (name : String) : List (Step Action) :=
  [{ message := "Updating core files in " ++ sq ++ name ++ sq ++ "...",
     action := Action.updateCoreFiles }]

/-- Embedding of the CREATE-mode step list (src/index.js lines 129-182).
Only the final invite-link step carries `ignoreDry := true`. -/
def createSteps (name : String) : List (Step Action) :=
  [{ message := "Creating directory " ++ sq ++ name ++ sq ++ "...",
     action := Action.mkdirTarget },
   { message := "Creating boilerplate...",
     action := Action.copyBoilerplate },
   { message := "Updating package.json...",
     action := Action.writePackageJson },
   { message := "Writing token.json...",
     action := Action.writeTokenJson },
   { message := "Installing modules...",
     action := Action.npmCi },
   { message := "\nGenerating bot invite link...",
     ignoreDry := true,
     action := Action.inviteLink }]

/-- Embedding of `args[0] === "--dry-run"` (src/index.js lines 185-186). -/
def isDryRun (args : List String) : Bool := args.head? == some "--dry-run"

/-- The final success message (src/index.js line 197). -/
def doneMessage (name : String) : String :=
  "Done!\n\nStart by running:\n\t$ cd " ++ name ++ "/\n\t$ npm start"

/-- Inputs of one run, as collected from the prompts, the filesystem
existence check and the command line (the `RunContext` of the spec).
`updateAnswer = none` models a cancelled confirmation prompt (the
`prompts` collaborator then resolves without the `update` key, so
`update` is `undefined`). -/
structure Env where
  name : String
  dirExists : Bool
  updateAnswer : Option Bool
  token : String
  args : List String

/-- How the async body of `.then` finishes: `process.exit(0)` on the
success path, or a thrown value (rejecting the promise). -/
inductive Outcome where
  | exit0
  | threw (e : String)
  deriving Repr, DecidableEq

/-- Embedding of the async body of `.then` (src/index.js lines 82-198):
the existence check on the target selects update vs create; update asks
for confirmation and throws `"Quitting..."` unless it is affirmative;
the chosen step list then runs under the dry-run policy.  Returns the
event trace and the outcome. -/
def mainRun (env : Env) : List (Event Action) × Outcome :=
  if env.dirExists then
    if env.updateAnswer = some true then
      (Event.promptUpdate :: Event.print "" ::
        runSteps (updateSteps env.name) (isDryRun env.args) ++
        [Event.print "", Event.print (doneMessage env.name)],
       Outcome.exit0)
    else
      ([Event.promptUpdate, Event.print ""], Outcome.threw "Quitting...")
  else
    (Event.promptToken :: Event.print "" ::
      runSteps (createSteps env.name) (isDryRun env.args) ++
      [Event.print "", Event.print (doneMessage env.name)],
     Outcome.exit0)

/-- Observable result of a whole process run: all events, plus the exit
code of the Node process. -/
structure RunResult where
  events : List (Event Action)
  exitCode : Nat
  deriving Repr, DecidableEq

/-- Embedding of the promise chain's boundary (src/index.js line 82 and
line 200): a fulfilled body ends in `process.exit(0)`; a rejected body is
caught by `.catch(console.error)`, which prints the thrown value to
stderr and returns normally, after which Node terminates with its
default exit code 0. -/
def topLevel (env : Env) : RunResult :=
  match mainRun env with
  | (events, Outcome.exit0) => { events := events, exitCode := 0 }
  | (events, Outcome.threw e) =>
    { events := events ++ [Event.printErr e], exitCode := 0 }

/-- Semantics of the JavaScript object spread override: a later `k: v`
entry replaces an existing field `k` in place (keeping its position) or
is appended at the end when `k` is new. -/
def overrideField (fields : List (String × Json)) (k : String) (v : Json) :
    List (String × Json) :=
  if (lookupField fields k).isSome then
    fields.map (fun f => if f.1 = k then (f.1, v) else f)
  else fields ++ [(k, v)]

/-- The attribution string used as the generated `description`
(src/index.js line 147). -/
def attribution : String := "Generated by " ++ utilityNameAndVersion ++ "."

/-- Embedding of `{ ...appPackage, name, description }` (src/index.js
line 148): the template manifest's fields with `name` and `description`
overridden. -/
def newPackageFields (appFields : List (String × Json)) (name : String) :
    List (String × Json) :=
  overrideField (overrideField appFields "name" (Json.str name))
    "description" (Json.str attribution)

/-- Content written to the target's `package.json` (src/index.js lines
149-152): the new manifest pretty-printed with 2-space indentation and a
trailing newline. -/
def packageJsonContent (appFields : List (String × Json)) (name : String) :
    String :=
  jsonStringify (Json.obj (newPackageFields appFields name)) ++ "\n"

/-- Content written to the generated `.gitignore` (src/index.js lines
138-141). -/
def gitignoreContent : String := "node_modules/\ntoken.json\n"

/-- Content written to the target's `token.json` (src/index.js lines
157-161): a one-field JSON object holding the raw token, pretty-printed
with a trailing newline. -/
def tokenJsonContent (token : String) : String :=
  jsonStringify (Json.obj [("token", Json.str token)]) ++ "\n"

/-- Target-relative path of the generated secret file. -/
def tokenJsonPath : List String := ["token.json"]

/-- Target-relative path of the generated manifest. -/
def packageJsonPath : List String := ["package.json"]

/-- An abstract filesystem tree: a map from relative paths (component
lists) to file contents. -/
def Fs : Type := List String → Option String

/-- Whether a target-relative path lies inside the `src/core` subtree. -/
def inCoreSubtree : List String → Bool
  | "src" :: "core" :: _ => true
  | _ => false

/-- Target-relative path of the entry-point file. -/
def entryPath : List String := ["src", "index.js"]

/-- Filesystem semantics of the single UPDATE-mode step action
(src/index.js lines 113-116): `copySync` of the template's `src/core`
subtree into the target (source files overwrite, target-only files are
kept), followed by `copySync` of the template's `src/index.js` file.
`tpl` is the bundled template tree (`appDir`), `target` the target tree
(`dir`); both are keyed by paths relative to their root. -/
def updateCoreFilesEffect (tpl target : Fs) : Fs := fun p =>
  if inCoreSubtree p then
    match tpl p with
    | some c => some c
    | none => target p
  else if p = entryPath then
    match tpl p with
    | some c => some c
    | none => target p
  else target p

/-- Splitting character list `cs` at newlines, `acc` holding the current
segment reversed: the semantics of `splitOn "\n"` on the generated
files. -/
def splitLinesAux (cs : List Char) (acc : List Char) : List String :=
  match cs with
  | [] => [String.mk acc.reverse]
  | c :: rest =>
    if c = '\n' then String.mk acc.reverse :: splitLinesAux rest []
    else splitLinesAux rest (c :: acc)

/-- The newline-separated segments of a string; a trailing newline
yields a final empty segment, as with JavaScript `split("\n")`. -/
def splitLines (s : String) : List String := splitLinesAux s.data []

/-- A small concrete template tree, used to evaluate the update step. -/
def tplDemo : Fs := fun p =>
  if p = ["src", "core", "handler.js"] then some "new core"
  else if p = ["src", "index.js"] then some "new entry"
  else none

/-- A small concrete target tree holding a user-authored file. -/
def targetDemo : Fs := fun p =>
  if p = ["README.md"] then some "user notes"
  else if p = ["src", "core", "handler.js"] then some "old core"
  else if p = ["src", "index.js"] then some "old entry"
  else none

/-! Helper lemmas, shared by the claim theorems below. -/

theorem printsOf_append (xs ys : List (Event α)) :
    printsOf (xs ++ ys) = printsOf xs ++ printsOf ys := by
  induction xs with
  | nil => rfl
  | cons e rest ih => cases e <;> simp [printsOf, ih]

theorem execsOf_append (xs ys : List (Event α)) :
    execsOf (xs ++ ys) = execsOf xs ++ execsOf ys := by
  induction xs with
  | nil => rfl
  | cons e rest ih => cases e <;> simp [execsOf, ih]

theorem printsOf_runSteps (steps : List (Step α)) (d : Bool) :
    printsOf (runSteps steps d) = steps.map Step.message := by
  induction steps with
  | nil => rfl
  | cons s rest ih =>
    cases h : (s.ignoreDry || !d) <;> simp [runSteps, h, printsOf, ih]

theorem execsOf_runSteps (steps : List (Step α)) (d : Bool) :
    execsOf (runSteps steps d) =
      (steps.filter (fun s => s.ignoreDry || !d)).map Step.action := by
  induction steps with
  | nil => rfl
  | cons s rest ih =>
    cases h : (s.ignoreDry || !d) <;>
      simp [runSteps, h, execsOf, printsOf, List.filter_cons, ih]

theorem promptUpdate_not_mem_runSteps (steps : List (Step α)) (d : Bool) :
    Event.promptUpdate ∉ runSteps steps d := by
  induction steps with
  | nil => simp [runSteps]
  | cons s rest ih =>
    cases h : (s.ignoreDry || !d) <;> simp [runSteps, h, ih]

theorem lookupField_append (xs ys : List (String × Json)) (k : String) :
    lookupField (xs ++ ys) k =
      match lookupField xs k with
      | some v => some v
      | none => lookupField ys k := by
  induction xs with
  | nil => rfl
  | cons f rest ih =>
    by_cases h : f.1 = k <;> simp [lookupField, h, ih]

theorem lookupField_mapOverride_same (fs : List (String × Json))
    (k : String) (v : Json) (h : (lookupField fs k).isSome) :
    lookupField (fs.map (fun f => if f.1 = k then (f.1, v) else f)) k =
      some v := by
  induction fs with
  | nil => simp [lookupField] at h
  | cons f rest ih =>
    obtain ⟨k1, v1⟩ := f
    by_cases hk : k1 = k
    · subst hk
      simp [lookupField]
    · simp [lookupField, hk] at h ⊢
      exact ih h

theorem lookupField_mapOverride_other (fs : List (String × Json))
    (k k2 : String) (v : Json) (h : k2 ≠ k) :
    lookupField (fs.map (fun f => if f.1 = k then (f.1, v) else f)) k2 =
      lookupField fs k2 := by
  induction fs with
  | nil => rfl
  | cons f rest ih =>
    obtain ⟨k1, v1⟩ := f
    by_cases hk : k1 = k
    · subst hk
      have hk2 : ¬ k1 = k2 := fun he => h he.symm
      simp [lookupField, hk2, ih]
    · by_cases hk2 : k1 = k2
      · subst hk2
        simp [lookupField, hk]
      · simp [lookupField, hk, hk2, ih]

theorem lookupField_overrideField_same (fs : List (String × Json))
    (k : String) (v : Json) :
    lookupField (overrideField fs k v) k = some v := by
  unfold overrideField
  split_ifs with h
  · exact lookupField_mapOverride_same fs k v h
  · rw [lookupField_append]
    have hn : lookupField fs k = none := by
      cases hx : lookupField fs k with
      | none => rfl
      | some w => rw [hx] at h; simp at h
    rw [hn]
    simp [lookupField]

theorem lookupField_overrideField_other (fs : List (String × Json))
    (k k2 : String) (v : Json) (h : k2 ≠ k) :
    lookupField (overrideField fs k v) k2 = lookupField fs k2 := by
  unfold overrideField
  split_ifs with hs
  · exact lookupField_mapOverride_other fs k k2 v h
  · rw [lookupField_append]
    cases hx : lookupField fs k2 with
    | some w => rfl
    | none =>
      have : ¬ k = k2 := fun he => h he.symm
      simp [lookupField, this]

/-! Claim theorems. -/

/-- C1: for every credential string the probe `getApplicationId` returns
a `CredentialProbeResult` — the extracted application-id value or
`Unavailable` (`none`) — and never propagates an error: whatever the
`curl` subprocess and `JSON.parse` collaborators do (network failure,
non-JSON body, JSON without an `id` field, or even a `null` document on
which property access would throw), every failure is caught and mapped
to `none`. -/
theorem getApplicationId_total_failure_containment
    (curl : String → Except Unit String)
    (jsonParse : String → Except Unit Json) (token : String) :
    (getApplicationId curl jsonParse token = none ∨
      ∃ v, getApplicationId curl jsonParse token = some v ∧
        jsTruthy v = true) ∧
    (curl token = Except.error () →
      getApplicationId curl jsonParse token = none) ∧
    (∀ s, curl token = Except.ok s → jsonParse s = Except.error () →
      getApplicationId curl jsonParse token = none) ∧
    (∀ s j, curl token = Except.ok s → jsonParse s = Except.ok j →
      jsGetProp j "id" = Except.ok none →
      getApplicationId curl jsonParse token = none) ∧
    (∀ s j, curl token = Except.ok s → jsonParse s = Except.ok j →
      jsGetProp j "id" = Except.error () →
      getApplicationId curl jsonParse token = none) := by
  refine ⟨?_, ?_, ?_, ?_, ?_⟩
  · cases hc : curl token with
    | error e => left; simp [getApplicationId, hc]
    | ok s =>
      cases hp : jsonParse s with
      | error e => left; simp [getApplicationId, hc, hp]
      | ok j =>
        cases hg : jsGetProp j "id" with
        | error e => left; simp [getApplicationId, hc, hp, hg]
        | ok o =>
          cases o with
          | none => left; simp [getApplicationId, hc, hp, hg]
          | some v =>
            cases ht : jsTruthy v with
            | false => left; simp [getApplicationId, hc, hp, hg, ht]
            | true =>
              right
              exact ⟨v, by simp [getApplicationId, hc, hp, hg, ht], ht⟩
  · intro hc
    simp [getApplicationId, hc]
  · intro s hc hp
    simp [getApplicationId, hc, hp]
  · intro s j hc hp hg
    simp [getApplicationId, hc, hp, hg]
  · intro s j hc hp hg
    simp [getApplicationId, hc, hp, hg]

/-- Witness for C1: with a failing `curl` the probe returns `none`. -/
theorem getApplicationId_total_failure_containment_witness :
    getApplicationId (fun _ => Except.error ()) (fun _ => Except.error ())
      "any-token" = none :=
  (getApplicationId_total_failure_containment
    (fun _ => Except.error ()) (fun _ => Except.error ()) "any-token").2.1 rfl

/-- C10: when the parsed response's `id` field is falsy — absent, null,
the empty string or 0 — the probe returns `none`, never the falsy value
itself; it returns a value only when that value is the `id` field and is
truthy. -/
theorem getApplicationId_falsy_id
    (curl : String → Except Unit String)
    (jsonParse : String → Except Unit Json) (token s : String) (j : Json)
    (hc : curl token = Except.ok s) (hp : jsonParse s = Except.ok j) :
    (jsGetProp j "id" = Except.ok none →
      getApplicationId curl jsonParse token = none) ∧
    (∀ v, jsGetProp j "id" = Except.ok (some v) → jsTruthy v = false →
      getApplicationId curl jsonParse token = none) ∧
    (∀ r, getApplicationId curl jsonParse token = some r →
      jsGetProp j "id" = Except.ok (some r) ∧ jsTruthy r = true) := by
  refine ⟨?_, ?_, ?_⟩
  · intro hg
    simp [getApplicationId, hc, hp, hg]
  · intro v hg ht
    simp [getApplicationId, hc, hp, hg, ht]
  · intro r hr
    simp only [getApplicationId, hc, hp] at hr
    cases hg : jsGetProp j "id" with
    | error e => rw [hg] at hr; simp at hr
    | ok o =>
      cases o with
      | none => rw [hg] at hr; simp at hr
      | some v =>
        rw [hg] at hr
        cases ht : jsTruthy v with
        | false => simp [ht] at hr
        | true =>
          simp [ht] at hr
          subst hr
          exact ⟨rfl, ht⟩

/-- Witness for C10: a response whose `id` field is the number 0 yields
`none`. -/
theorem getApplicationId_falsy_id_witness :
    getApplicationId (fun _ => Except.ok "resp")
      (fun _ => Except.ok (Json.obj [("id", Json.num 0)])) "tok" = none :=
  (getApplicationId_falsy_id (fun _ => Except.ok "resp")
    (fun _ => Except.ok (Json.obj [("id", Json.num 0)])) "tok" "resp"
    (Json.obj [("id", Json.num 0)]) rfl rfl).2.1 (Json.num 0) rfl rfl

/-- C2: the step runner iterates the built step list in fixed order,
printing every step's message unconditionally (even under dry-run), and
an action is executed (in order) exactly when `!dryRun || ignoreDry`. -/
theorem runSteps_execution_policy (steps : List (Step α)) (d : Bool) :
    printsOf (runSteps steps d) = steps.map Step.message ∧
    execsOf (runSteps steps d) =
      (steps.filter (fun s => s.ignoreDry || !d)).map Step.action :=
  ⟨printsOf_runSteps steps d, execsOf_runSteps steps d⟩

/-- C3: with an existing target and a confirmation answer that is not an
explicit yes (a `no` or a cancelled prompt), the run throws
`"Quitting..."` before any step list is run: the trace holds only the
confirmation prompt and one blank line, no step action is ever executed,
and the top-level catch prints the abort instead of crashing. -/
theorem declined_update_aborts_run (env : Env)
    (hex : env.dirExists = true) (hans : env.updateAnswer ≠ some true) :
    mainRun env =
      ([Event.promptUpdate, Event.print ""], Outcome.threw "Quitting...") ∧
    (∀ a : Action, Event.exec a ∉ (topLevel env).events) ∧
    (topLevel env).events =
      [Event.promptUpdate, Event.print "", Event.printErr "Quitting..."] := by
  have h1 : mainRun env =
      ([Event.promptUpdate, Event.print ""], Outcome.threw "Quitting...") := by
    simp [mainRun, hex, hans]
  refine ⟨h1, ?_, ?_⟩
  · intro a
    simp [topLevel, h1]
  · simp [topLevel, h1]

/-- Witness for C3: a concrete declined update run executes nothing and
ends with the printed abort. -/
theorem declined_update_aborts_run_witness :
    (topLevel ⟨"my-bot", true, some false, "tok", []⟩).events =
      [Event.promptUpdate, Event.print "", Event.printErr "Quitting..."] :=
  (declined_update_aborts_run ⟨"my-bot", true, some false, "tok", []⟩
    rfl (by decide)).2.2

/-- C4 counterexample: the CREATE-mode step list does not have 5 steps;
it has 6 (the invite-link step is a sixth entry). -/
theorem createSteps_length_not_five :
    ¬ ((createSteps "sample-app").length = 5) := by
  decide

/-- C4 (amended): the step list built for CREATE mode contains exactly 6
steps, in a strict fixed order, with only the final invite-link step
exempt from dry-run. -/
theorem createSteps_catalog (name : String) :
    (createSteps name).length = 6 ∧
    (createSteps name).map Step.message =
      ["Creating directory " ++ sq ++ name ++ sq ++ "...",
       "Creating boilerplate...",
       "Updating package.json...",
       "Writing token.json...",
       "Installing modules...",
       "\nGenerating bot invite link..."] ∧
    (createSteps name).map Step.ignoreDry =
      [false, false, false, false, false, true] :=
  ⟨rfl, rfl, rfl⟩

/-- C5 counterexample: a declined update confirmation prints the
diagnostic but the process still terminates with exit code 0, not a
non-zero code. -/
theorem declined_update_exit_code_zero :
    ¬ ((topLevel ⟨"my-bot", true, some false, "tok", []⟩).exitCode ≠ 0) ∧
    Event.printErr "Quitting..." ∈
      (topLevel ⟨"my-bot", true, some false, "tok", []⟩).events := by
  constructor
  · simp [topLevel, mainRun]
  · simp [topLevel, mainRun]

/-- C5 (amended): a successful run exits with code 0 via
`process.exit(0)`; a run that ends in a thrown failure (such as the
declined update confirmation) has the thrown value printed by the
top-level catch handler, but the process then also terminates with exit
code 0 — the catch handler swallows the rejection, so Node exits with
its default code. -/
theorem run_exit_codes (env : Env) :
    (topLevel env).exitCode = 0 ∧
    (∀ e, (mainRun env).2 = Outcome.threw e →
      (topLevel env).events = (mainRun env).1 ++ [Event.printErr e]) ∧
    ((mainRun env).2 = Outcome.exit0 →
      (topLevel env).events = (mainRun env).1) := by
  rcases h : mainRun env with ⟨evs, o⟩
  cases o with
  | exit0 =>
    refine ⟨by simp [topLevel, h], ?_, by simp [topLevel, h]⟩
    intro e he
    simp at he
  | threw e0 =>
    refine ⟨by simp [topLevel, h], ?_, ?_⟩
    · intro e he
      simp at he
      subst he
      simp [topLevel, h]
    · intro he
      simp at he

/-- Witness for C5 (amended): on the concrete declined run the catch
handler appends the printed diagnostic and the exit code is 0. -/
theorem run_exit_codes_witness :
    (topLevel ⟨"my-bot", true, some false, "tok", []⟩).events =
      (mainRun ⟨"my-bot", true, some false, "tok", []⟩).1 ++
        [Event.printErr "Quitting..."] :=
  (run_exit_codes ⟨"my-bot", true, some false, "tok", []⟩).2.1
    "Quitting..." rfl

/-- C6: mode resolution is decided solely by existence of the target
path: when the target does not exist the run takes the CREATE branch —
the update confirmation prompt never appears in the trace and the
printed messages are exactly the CREATE catalog's — and when the target
exists the run starts with the update confirmation prompt (UPDATE,
subject to confirmation). -/
theorem mode_resolved_by_existence (env : Env) :
    (env.dirExists = false →
      Event.promptUpdate ∉ (mainRun env).1 ∧
      printsOf (mainRun env).1 =
        "" :: (createSteps env.name).map Step.message ++
          ["", doneMessage env.name] ∧
      (mainRun env).2 = Outcome.exit0) ∧
    (env.dirExists = true →
      (mainRun env).1.head? = some Event.promptUpdate) := by
  constructor
  · intro hex
    have h1 : mainRun env =
        (Event.promptToken :: Event.print "" ::
          runSteps (createSteps env.name) (isDryRun env.args) ++
          [Event.print "", Event.print (doneMessage env.name)],
         Outcome.exit0) := by
      simp [mainRun, hex]
    refine ⟨?_, ?_, ?_⟩
    · rw [h1]
      simp [promptUpdate_not_mem_runSteps]
    · rw [h1]
      show "" :: printsOf
          (runSteps (createSteps env.name) (isDryRun env.args) ++
            [Event.print "", Event.print (doneMessage env.name)]) = _
      rw [printsOf_append, printsOf_runSteps]
      rfl
    · rw [h1]
  · intro hex
    by_cases hans : env.updateAnswer = some true <;>
      simp [mainRun, hex, hans]

/-- Witness for C6: a concrete run against a non-existent target never
prompts for update confirmation. -/
theorem mode_resolved_by_existence_witness :
    Event.promptUpdate ∉
      (mainRun ⟨"my-bot", false, none, "tok", []⟩).1 :=
  ((mode_resolved_by_existence ⟨"my-bot", false, none, "tok", []⟩).1
    rfl).1

/-- C7: the UPDATE-mode step list has exactly one step, and its action
only writes the `src/core` subtree and the `src/index.js` entry file
from the bundled template: every path outside those is left with its
previous content, for any template and any target tree. -/
theorem update_step_partial_sync (tpl target : Fs) (name : String) :
    (updateSteps name).length = 1 ∧
    (∀ p, inCoreSubtree p = false → p ≠ entryPath →
      updateCoreFilesEffect tpl target p = target p) ∧
    (∀ p c, inCoreSubtree p = true → tpl p = some c →
      updateCoreFilesEffect tpl target p = some c) ∧
    (∀ c, tpl entryPath = some c →
      updateCoreFilesEffect tpl target entryPath = some c) := by
  refine ⟨rfl, ?_, ?_, ?_⟩
  · intro p hcore hep
    simp [updateCoreFilesEffect, hcore, hep]
  · intro p c hcore htpl
    simp [updateCoreFilesEffect, hcore, htpl]
  · intro c htpl
    have hcore : inCoreSubtree entryPath = false := rfl
    simp only [entryPath] at htpl
    simp [updateCoreFilesEffect, hcore, entryPath, htpl]

/-- Witness for C7: on concrete trees the update step keeps the user's
`README.md` untouched while overwriting the core file. -/
theorem update_step_partial_sync_witness :
    updateCoreFilesEffect tplDemo targetDemo ["README.md"] =
      some "user notes" :=
  ((update_step_partial_sync tplDemo targetDemo "my-bot").2.1
    ["README.md"] rfl (by decide)).trans rfl

/-- C8: the CREATE-mode manifest step writes the template manifest's
fields with `name` overridden by the validated project name and
`description` by the attribution string naming the tool and its version,
serialized with 2-space indentation and a trailing newline; every other
field is carried over unchanged. -/
theorem package_manifest_generation
    (appFields : List (String × Json)) (name : String) :
    packageJsonContent appFields name =
      jsonStringify (Json.obj (newPackageFields appFields name)) ++ "\n" ∧
    attribution = "Generated by create-discord-bot v3.10.2." ∧
    lookupField (newPackageFields appFields name) "name" =
      some (Json.str name) ∧
    lookupField (newPackageFields appFields name) "description" =
      some (Json.str attribution) ∧
    (∀ k, k ≠ "name" → k ≠ "description" →
      lookupField (newPackageFields appFields name) k =
        lookupField appFields k) := by
  refine ⟨rfl, rfl, ?_, ?_, ?_⟩
  · unfold newPackageFields
    rw [lookupField_overrideField_other _ _ _ _ (by decide)]
    exact lookupField_overrideField_same appFields "name" (Json.str name)
  · exact lookupField_overrideField_same _ "description" (Json.str attribution)
  · intro k hn hd
    unfold newPackageFields
    rw [lookupField_overrideField_other _ _ _ _ hd,
      lookupField_overrideField_other _ _ _ _ hn]

/-- Witness for C8: on a concrete template manifest the `version` field
is untouched and the overrides take effect. -/
theorem package_manifest_generation_witness :
    lookupField
      (newPackageFields
        [("name", Json.str "template-app"), ("version", Json.str "1.0.0"),
         ("description", Json.str "template description")] "sample-app")
      "version" = some (Json.str "1.0.0") :=
  ((package_manifest_generation
    [("name", Json.str "template-app"), ("version", Json.str "1.0.0"),
     ("description", Json.str "template description")] "sample-app").2.2.2.2
    "version" (by decide) (by decide)).trans rfl

/-- C9: the generated ignore-file lists the dependency-install directory
(`node_modules/`) and the secret file (`token.json`) by name; the
credential is persisted into `token.json`, a file distinct from the
manifest, as a pretty-printed, newline-terminated JSON object with the
single field `token` holding the raw credential string. -/
theorem ignore_file_and_secret_file (token : String) :
    splitLines gitignoreContent = ["node_modules/", "token.json", ""] ∧
    "node_modules/" ∈ splitLines gitignoreContent ∧
    "token.json" ∈ splitLines gitignoreContent ∧
    tokenJsonPath ≠ packageJsonPath ∧
    tokenJsonContent token =
      jsonStringify (Json.obj [("token", Json.str token)]) ++ "\n" ∧
    lookupField [("token", Json.str token)] "token" =
      some (Json.str token) ∧
    [("token", Json.str token)].length = 1 ∧
    tokenJsonContent "MY-TOKEN" =
      "\x7b\n  \"token\": \"MY-TOKEN\"\n\x7d\n" := by
  refine ⟨by decide, by decide, by decide, by decide, rfl, ?_, rfl, by decide⟩
  simp [lookupField]

end CreateDiscordBot
